import Mathlib

/-!
# The execution-manager contract of `runtime/cudaq/qis/execution_manager.h`

A shallow embedding of the header: `QuditInfo`, the library-mode
`measure_result`, the `ExecutionManager` base class, `getExecutionManager`
and the two factories generated by `CUDAQ_REGISTER_EXECUTION_MANAGER`.

Conventions of the embedding.
* `std::size_t` values are natural numbers, `int` values are integers; the
  header performs no arithmetic on either, so no wrap-around can be observed.
* A pointer to a manager is an address (`Addr`); `nullptr` is `none`.
* Code that has an effect is a function from a state to a result and a state.
* Calls that leave the header (the C hook, the factory) are recorded in a call
  log that is part of the state, so that "is invoked" can be stated.
-/

namespace cudaq

/-! ## QuditInfo -/

/-- The struct `QuditInfo`: the number of levels and the id of a qudit. -/
structure QuditInfo where
  levels : Nat
  id : Nat
  deriving DecidableEq, Repr

/-- The member `QuditInfo::operator==`:
`return levels == other.levels && id == other.id;`. -/
def QuditInfo.opEq (self other : QuditInfo) : Bool :=
  self.levels == other.levels && self.id == other.id

/-! ## The boolean-conversion hook and `measure_result` (library mode) -/

/-- The world outside the header as far as `measure_result` can see it: the
state `ext` that the C function `__nvqpp__MeasureResultBoolConversion` may read
and write, and the log `hookCalls` of the arguments it has been invoked with,
oldest first. -/
structure HookWorld (σ : Type) where
  ext : σ
  hookCalls : List Int

/-- The behaviour of the external function
`bool __nvqpp__MeasureResultBoolConversion(int)`: its definition is not in the
header, so it is a parameter: any function of the `int` argument and of the
external state. -/
abbrev HookImpl (σ : Type) := Int → σ → Bool × σ

/-- One call `__nvqpp__MeasureResultBoolConversion(arg)`: runs the external
definition and appends the argument to the call log. -/
def __nvqpp__MeasureResultBoolConversion {σ : Type} (impl : HookImpl σ) (arg : Int)
    (w : HookWorld σ) : Bool × HookWorld σ :=
  let r := impl arg w.ext
  (r.1, { ext := r.2, hookCalls := w.hookCalls ++ [arg] })

/-- The class `measure_result` of library mode, with its two private fields
and their default member initialisers. -/
structure measure_result where
  result : Int := 0
  uniqueId : Nat := 0
  deriving DecidableEq, Repr

/-- The constructor `measure_result(int res, std::size_t id)`. -/
def measure_result.ofResId (res : Int) (id : Nat) : measure_result :=
  { result := res, uniqueId := id }

/-- The constructor `measure_result(int res)`; `uniqueId` keeps its default. -/
def measure_result.ofRes (res : Int) : measure_result :=
  { result := res }

/-- The member `operator int() const { return result; }`, as a computation in
the world: it returns the value and the world it was given. -/
def measure_result.toInt {σ : Type} (self : measure_result) (w : HookWorld σ) :
    Int × HookWorld σ :=
  (self.result, w)

/-- The member
`operator bool() const { return __nvqpp__MeasureResultBoolConversion(result); }`. -/
def measure_result.toBool {σ : Type} (impl : HookImpl σ) (self : measure_result)
    (w : HookWorld σ) : Bool × HookWorld σ :=
  __nvqpp__MeasureResultBoolConversion impl self.result w

/-! ## Errors of the contract -/

/-- The error taxonomy of the contract (the header itself raises none of
them; they are raised by the collaborators it calls). -/
inductive ContractError where
  | ProtocolViolation
  | UnknownOperation
  | ResourceExhaustion
  deriving DecidableEq, Repr

/-! ## The qudit identity pool -/

/-- Modelled from the spec: the class `QuditIdTracker` of
`common/QuditIdTracker.h` is not among the sources. The pool holds a free list
of previously returned ids, reused first-in first-out, and the high-water mark
of ever-allocated ids: the ids handed out so far are exactly those below
`highWater`. -/
structure QuditIdTracker where
  freeList : List Nat
  highWater : Nat
  deriving DecidableEq, Repr

/-- Modelled from the spec: a default-constructed `QuditIdTracker` of the
missing `common/QuditIdTracker.h`: nothing allocated, nothing returned. -/
def QuditIdTracker.empty : QuditIdTracker :=
  { freeList := [], highWater := 0 }

/-- Modelled from the spec: `QuditIdTracker::getNextIndex` of the missing
`common/QuditIdTracker.h`: a recycled id if the free list is non-empty (the
oldest one), otherwise the high-water mark, which grows by one. Never fails. -/
def QuditIdTracker.getNextIndex (t : QuditIdTracker) : Nat × QuditIdTracker :=
  match t.freeList with
  | [] => (t.highWater, { t with highWater := t.highWater + 1 })
  | i :: rest => (i, { t with freeList := rest })

/-- The data members of the class `ExecutionManager`: `availableIndices`,
`totalQudits` and `tracker`. -/
structure ExecutionManager where
  availableIndices : List Nat
  totalQudits : Nat
  tracker : QuditIdTracker
  deriving DecidableEq, Repr

/-- The member `std::size_t getNextIndex() { return tracker.getNextIndex(); }`. -/
def ExecutionManager.getNextIndex (self : ExecutionManager) : Nat × ExecutionManager :=
  let r := self.tracker.getNextIndex
  (r.1, { self with tracker := r.2 })

/-- A custom operation definition: the template argument `T` of
`registerOperation<T>`, identified by the name of the type. -/
abbrev OpDef := String

/-- Modelled from the spec: the class `customOpRegistry` of
`common/CustomOp.h` is not among the sources. It is a mapping from operation
name to operation definition; the newest entry for a name comes first. -/
structure customOpRegistry where
  entries : List (String × OpDef)
  deriving DecidableEq, Repr

/-- Modelled from the spec: `customOpRegistry::registerOperation<T>(name)` of
the missing `common/CustomOp.h`: an upsert, overwriting any previous
definition under the same name. -/
def customOpRegistry.registerOperation (r : customOpRegistry) (name : String) (T : OpDef) :
    customOpRegistry :=
  { entries := (name, T) :: r.entries.filter (fun e => e.1 != name) }

/-- Modelled from the spec: `customOpRegistry::clearRegisteredOperations` of
the missing `common/CustomOp.h`: empties the whole mapping. -/
def customOpRegistry.clearRegisteredOperations (_r : customOpRegistry) : customOpRegistry :=
  { entries := [] }

/-- Modelled from the spec: the `lookup(name)` read path of the registry in
the missing `common/CustomOp.h`: the definition under the name, if any. -/
def customOpRegistry.lookup (r : customOpRegistry) (name : String) : Option OpDef :=
  (r.entries.find? (fun e => e.1 == name)).map (fun e => e.2)

/-! ## The region stack and the instruction dispatcher

`apply`, `startAdjointRegion`, `endAdjointRegion`, `startCtrlRegion` and
`endCtrlRegion` are pure virtual in the header; their behaviour is that of the
contract. -/

/-- Modelled from the spec: the region stack kept by the implementations of
the pure virtual region members, which are not among the sources: the adjoint
depth and the open control frames, innermost first. -/
structure RegionStack where
  adjointDepth : Nat
  controlFrames : List (List QuditInfo)
  deriving DecidableEq, Repr

/-- Modelled from the spec: the region stack of a manager on which no region
member (absent from the sources) has been called: depth 0 and no frame. -/
def RegionStack.empty : RegionStack :=
  { adjointDepth := 0, controlFrames := [] }

/-- Modelled from the spec: `beginAdjoint` of the region stack behind the pure
virtual `startAdjointRegion`: increments the adjoint depth. -/
def RegionStack.beginAdjoint (r : RegionStack) : RegionStack :=
  { r with adjointDepth := r.adjointDepth + 1 }

/-- Modelled from the spec: `endAdjoint` of the region stack behind the pure
virtual `endAdjointRegion`: decrements the adjoint depth; a ProtocolViolation
when the depth is already 0. -/
def RegionStack.endAdjoint (r : RegionStack) : Except ContractError RegionStack :=
  if r.adjointDepth = 0 then .error ContractError.ProtocolViolation
  else .ok { r with adjointDepth := r.adjointDepth - 1 }

/-- Modelled from the spec: `beginControl` of the region stack behind the pure
virtual `startCtrlRegion`: pushes a frame holding the given qudits. -/
def RegionStack.beginControl (r : RegionStack) (qudits : List QuditInfo) : RegionStack :=
  { r with controlFrames := qudits :: r.controlFrames }

/-- Modelled from the spec: `endControl` of the region stack behind the pure
virtual `endCtrlRegion`: pops a frame whose recorded size equals `n`; a
ProtocolViolation on a mismatch or when no frame is open. -/
def RegionStack.endControl (r : RegionStack) (n : Nat) : Except ContractError RegionStack :=
  match r.controlFrames with
  | [] => .error ContractError.ProtocolViolation
  | frame :: rest =>
    if frame.length = n then .ok { r with controlFrames := rest }
    else .error ContractError.ProtocolViolation

/-- Modelled from the spec: `effectiveAdjoint` of the region stack, absent
from the sources: the adjoint depth is odd (nested regions cancel in pairs). -/
def RegionStack.effectiveAdjoint (r : RegionStack) : Bool :=
  r.adjointDepth % 2 == 1

/-- Modelled from the spec: `effectiveControls` of the region stack, absent
from the sources: all qudits currently in open control frames. -/
def RegionStack.effectiveControls (r : RegionStack) : List QuditInfo :=
  r.controlFrames.flatten

/-- Modelled from the spec: the fully resolved instruction that an
implementation of the pure virtual `apply` forwards to its backend. The
parameter type `R` stands for `double` and `S` for `spin_op_term`. -/
structure Instruction (R S : Type) where
  gateName : String
  params : List R
  finalControls : List QuditInfo
  targets : List QuditInfo
  finalAdjoint : Bool
  op : S

/-- Modelled from the spec: the state of the instruction dispatcher of a
manager implementation, which is not among the sources: its region stack and
the instructions its backend has received, oldest first. -/
structure Dispatcher (R S : Type) where
  region : RegionStack
  forwarded : List (Instruction R S)

/-- Modelled from the spec: the dispatcher of a freshly constructed manager
implementation (absent from the sources): no open region, nothing forwarded. -/
def Dispatcher.fresh (R S : Type) : Dispatcher R S :=
  { region := RegionStack.empty, forwarded := [] }

/-- Modelled from the spec: an implementation of the pure virtual
`startAdjointRegion`. -/
def Dispatcher.startAdjointRegion {R S : Type} (d : Dispatcher R S) : Dispatcher R S :=
  { d with region := d.region.beginAdjoint }

/-- Modelled from the spec: an implementation of the pure virtual
`endAdjointRegion`. -/
def Dispatcher.endAdjointRegion {R S : Type} (d : Dispatcher R S) :
    Except ContractError (Dispatcher R S) :=
  match d.region.endAdjoint with
  | .ok r => .ok { d with region := r }
  | .error e => .error e

/-- Modelled from the spec: an implementation of the pure virtual
`startCtrlRegion`. -/
def Dispatcher.startCtrlRegion {R S : Type} (d : Dispatcher R S) (qudits : List QuditInfo) :
    Dispatcher R S :=
  { d with region := d.region.beginControl qudits }

/-- Modelled from the spec: an implementation of the pure virtual
`endCtrlRegion`. -/
def Dispatcher.endCtrlRegion {R S : Type} (d : Dispatcher R S) (n_controls : Nat) :
    Except ContractError (Dispatcher R S) :=
  match d.region.endControl n_controls with
  | .ok r => .ok { d with region := r }
  | .error e => .error e

/-- Modelled from the spec: the instruction that an implementation of the pure
virtual `apply` builds: `finalAdjoint = isAdjointFlag XOR effectiveAdjoint()`
and `finalControls = explicitControls ∪ effectiveControls()`. -/
def Dispatcher.resolve {R S : Type} (d : Dispatcher R S) (gateName : String)
    (params : List R) (controls targets : List QuditInfo) (isAdjoint : Bool) (op : S) :
    Instruction R S :=
  { gateName := gateName
    params := params
    finalControls := controls ∪ d.region.effectiveControls
    targets := targets
    finalAdjoint := xor isAdjoint d.region.effectiveAdjoint
    op := op }

/-- Modelled from the spec: an implementation of the pure virtual `apply`:
resolves the instruction against the region stack, resolves the name against
the custom operation registry if it is not a built-in (`isBuiltin` is the set
of built-in names, which the spec leaves open) and forwards the instruction to
the backend; UnknownOperation if the name is neither built-in nor
registered. -/
def Dispatcher.apply {R S : Type} (isBuiltin : String → Bool) (registry : customOpRegistry)
    (d : Dispatcher R S) (gateName : String) (params : List R)
    (controls targets : List QuditInfo) (isAdjoint : Bool) (op : S) :
    Except ContractError (Dispatcher R S) :=
  if isBuiltin gateName || (registry.lookup gateName).isSome then
    .ok { d with forwarded :=
            d.forwarded ++ [d.resolve gateName params controls targets isAdjoint op] }
  else .error ContractError.UnknownOperation

/-- One call on a dispatcher: a region member or `apply`. -/
inductive DispatchCall (R S : Type) where
  | startAdjointRegion
  | endAdjointRegion
  | startCtrlRegion (qudits : List QuditInfo)
  | endCtrlRegion (n_controls : Nat)
  | apply (gateName : String) (params : List R) (controls targets : List QuditInfo)
      (isAdjoint : Bool) (op : S)

/-- Performs one call on a dispatcher. -/
def Dispatcher.step {R S : Type} (isBuiltin : String → Bool) (registry : customOpRegistry)
    (d : Dispatcher R S) : DispatchCall R S → Except ContractError (Dispatcher R S)
  | DispatchCall.startAdjointRegion => .ok d.startAdjointRegion
  | DispatchCall.endAdjointRegion => d.endAdjointRegion
  | DispatchCall.startCtrlRegion qudits => .ok (d.startCtrlRegion qudits)
  | DispatchCall.endCtrlRegion n => d.endCtrlRegion n
  | DispatchCall.apply g ps cs ts adj op => d.apply isBuiltin registry g ps cs ts adj op

/-- Performs a sequence of calls on a dispatcher, stopping at the first
failure. -/
def Dispatcher.run {R S : Type} (isBuiltin : String → Bool) (registry : customOpRegistry) :
    List (DispatchCall R S) → Dispatcher R S → Except ContractError (Dispatcher R S)
  | [], d => .ok d
  | c :: cs, d =>
    match d.step isBuiltin registry c with
    | .ok d1 => Dispatcher.run isBuiltin registry cs d1
    | .error e => .error e

/-- The number of `startAdjointRegion` calls in a sequence of calls. -/
def DispatchCall.adjointStarts {R S : Type} : List (DispatchCall R S) → Nat
  | [] => 0
  | DispatchCall.startAdjointRegion :: cs => DispatchCall.adjointStarts cs + 1
  | _ :: cs => DispatchCall.adjointStarts cs

/-- The number of `endAdjointRegion` calls in a sequence of calls. -/
def DispatchCall.adjointEnds {R S : Type} : List (DispatchCall R S) → Nat
  | [] => 0
  | DispatchCall.endAdjointRegion :: cs => DispatchCall.adjointEnds cs + 1
  | _ :: cs => DispatchCall.adjointEnds cs

/-! ## The process: manager objects, the override and the thread-local caches -/

/-- The address of a manager object; a null pointer is `none`. -/
abbrev Addr := Nat

/-- The identity of a thread of execution. -/
abbrev ThreadId := Nat

/-- The two factories that `CUDAQ_REGISTER_EXECUTION_MANAGER(Manager, Name)`
defines. -/
inductive Factory where
  | getRegisteredExecutionManager
  | getRegisteredExecutionManager_Name
  deriving DecidableEq, Repr

/-- The state of the process that the header reads and writes.
* `override`: the pointer that `getExecutionManagerInternal` (declared in the
  header, "implemented elsewhere") returns.
* `registry`: the object `customOpRegistry::getInstance()`.
* `heap`: the manager objects, by address; `nextAddr` is the next address a
  construction uses, so every construction yields an object of its own.
* `qis_manager t`: the `thread_local static std::unique_ptr` of
  `getRegisteredExecutionManager` in thread `t`, `none` while uninitialised.
* `qis_manager_Name t`: the same variable of `getRegisteredExecutionManager_<Name>`.
* `factoryCalls`: the log of factory invocations, oldest first. -/
structure Process where
  override : Option Addr
  registry : customOpRegistry
  heap : Addr → Option ExecutionManager
  nextAddr : Addr
  qis_manager : ThreadId → Option Addr
  qis_manager_Name : ThreadId → Option Addr
  factoryCalls : List (Factory × ThreadId)

/-- A process at start-up: no thread-local manager constructed yet, no factory
called yet and an empty registry. External code may already own `external`
manager objects, all copies of `ext`, at the addresses below `external`, and
may have installed `override`. -/
def Process.init (external : Nat) (ext : ExecutionManager) (override : Option Addr) : Process :=
  { override := override
    registry := { entries := [] }
    heap := fun a => if a < external then some ext else none
    nextAddr := external
    qis_manager := fun _ => none
    qis_manager_Name := fun _ => none
    factoryCalls := [] }

/-- The function `ExecutionManager *getExecutionManagerInternal()`, declared in
the header and implemented elsewhere: the installed override, or null. -/
def getExecutionManagerInternal (p : Process) : Option Addr :=
  p.override

/-- The function `getRegisteredExecutionManager` that the macro
`CUDAQ_REGISTER_EXECUTION_MANAGER(Manager, Name)` defines, called on thread
`t`. The thread-local `qis_manager` is initialised with
`std::make_unique<Manager>()` the first time the thread passes its
declaration; `Manager` is the value of a default-constructed object of the
macro argument. Returns `qis_manager.get()`. -/
def getRegisteredExecutionManager (Manager : ExecutionManager) (t : ThreadId) (p : Process) :
    Addr × Process :=
  match p.qis_manager t with
  | some a =>
    (a, { p with
          factoryCalls := p.factoryCalls ++ [(Factory.getRegisteredExecutionManager, t)] })
  | none =>
    (p.nextAddr,
      { p with
        heap := Function.update p.heap p.nextAddr (some Manager)
        nextAddr := p.nextAddr + 1
        qis_manager := Function.update p.qis_manager t (some p.nextAddr)
        factoryCalls := p.factoryCalls ++ [(Factory.getRegisteredExecutionManager, t)] })

/-- The function `getRegisteredExecutionManager_<Name>` that the macro defines
inside `extern "C"`, called on thread `t`; it has a thread-local `qis_manager`
of its own. -/
def getRegisteredExecutionManager_Name (Manager : ExecutionManager) (t : ThreadId)
    (p : Process) : Addr × Process :=
  match p.qis_manager_Name t with
  | some a =>
    (a, { p with
          factoryCalls :=
            p.factoryCalls ++ [(Factory.getRegisteredExecutionManager_Name, t)] })
  | none =>
    (p.nextAddr,
      { p with
        heap := Function.update p.heap p.nextAddr (some Manager)
        nextAddr := p.nextAddr + 1
        qis_manager_Name := Function.update p.qis_manager_Name t (some p.nextAddr)
        factoryCalls :=
          p.factoryCalls ++ [(Factory.getRegisteredExecutionManager_Name, t)] })

/-- The inline function `getExecutionManager`, called on thread `t`:
`em = getExecutionManagerInternal(); if (em) return em;`
`return getRegisteredExecutionManager();`. -/
def getExecutionManager (Manager : ExecutionManager) (t : ThreadId) (p : Process) :
    Addr × Process :=
  match getExecutionManagerInternal p with
  | some em => (em, p)
  | none => getRegisteredExecutionManager Manager t p

/-- The static member `customOpRegistry::getInstance()`: it takes no manager,
and yields the one registry of the process. -/
def customOpRegistry.getInstance (p : Process) : customOpRegistry :=
  p.registry

/-- The member template `ExecutionManager::registerOperation<T>(name)` called
on the manager at address `this`:
`customOpRegistry::getInstance().registerOperation<T>(name);`. -/
def ExecutionManager.registerOperation (_this : Addr) (T : OpDef) (name : String)
    (p : Process) : Process :=
  { p with registry := (customOpRegistry.getInstance p).registerOperation name T }

/-- The member `ExecutionManager::clearRegisteredOperations` of the base class
called on the manager at address `this`:
`customOpRegistry::getInstance().clearRegisteredOperations();`. -/
def ExecutionManager.clearRegisteredOperations (_this : Addr) (p : Process) : Process :=
  { p with registry := (customOpRegistry.getInstance p).clearRegisteredOperations }

/-- The member `getNextIndex` called on the manager object at address `this`;
`none` when there is no manager at that address. -/
def Process.getNextIndex (this : Addr) (p : Process) : Option (Nat × Process) :=
  match p.heap this with
  | some m =>
    some (m.getNextIndex.1, { p with heap := Function.update p.heap this (some m.getNextIndex.2) })
  | none => none

/-- Something that happens in the process: a call of one of the three lookup
functions on a thread, external code installing (`some`) or removing (`none`)
the override, or a call of a member of a manager object. -/
inductive Event where
  | getExecutionManager (t : ThreadId)
  | getRegisteredExecutionManager (t : ThreadId)
  | getRegisteredExecutionManager_Name (t : ThreadId)
  | setOverride (em : Option Addr)
  | getNextIndex (this : Addr)
  | registerOperation (this : Addr) (T : OpDef) (name : String)
  | clearRegisteredOperations (this : Addr)
  deriving DecidableEq, Repr

/-- The process after one event. -/
def Process.step (Manager : ExecutionManager) (p : Process) : Event → Process
  | Event.getExecutionManager t => (getExecutionManager Manager t p).2
  | Event.getRegisteredExecutionManager t => (getRegisteredExecutionManager Manager t p).2
  | Event.getRegisteredExecutionManager_Name t =>
    (getRegisteredExecutionManager_Name Manager t p).2
  | Event.setOverride em => { p with override := em }
  | Event.getNextIndex this =>
    match p.getNextIndex this with
    | some r => r.2
    | none => p
  | Event.registerOperation this T name => ExecutionManager.registerOperation this T name p
  | Event.clearRegisteredOperations this => ExecutionManager.clearRegisteredOperations this p

/-- The process after a sequence of events. -/
def Process.run (Manager : ExecutionManager) : List Event → Process → Process
  | [], p => p
  | e :: es, p => Process.run Manager es (p.step Manager e)

/-- A default-constructed manager with an empty identity pool, used in the
concrete instances. -/
def ExecutionManager.blank : ExecutionManager :=
  { availableIndices := [], totalQudits := 0, tracker := QuditIdTracker.empty }

/-- C5: for every two QuditInfo values, `a == b` holds if and only if both
fields match: the levels are equal and the ids are equal. In particular the
same id with different levels, or the same levels with different ids, compare
unequal. -/
theorem QuditInfo.opEq_iff_fields (a b : QuditInfo) :
    (a.opEq b = true ↔ a.levels = b.levels ∧ a.id = b.id) ∧
    (QuditInfo.mk 2 7).opEq (QuditInfo.mk 3 7) = false ∧
    (QuditInfo.mk 2 7).opEq (QuditInfo.mk 2 8) = false := by
  refine ⟨?_, by decide, by decide⟩
  simp [QuditInfo.opEq]

/-! ## Conversions of `measure_result` -/

/-- C3: converting a library-mode measure_result with raw code `r`, built by
either constructor, to a truth value invokes the hook exactly once, with
argument `r` (the call log grows by the single entry `r`), the value of the
conversion is what the hook returned, and the external state is what the hook
left; for raw code 1 the hook is called once with 1. -/
theorem measure_result.toBool_invokes_hook_once {σ : Type} (impl : HookImpl σ) (r : Int)
    (u : Nat) (w : HookWorld σ) :
    (measure_result.toBool impl (measure_result.ofResId r u) w).1 = (impl r w.ext).1 ∧
    (measure_result.toBool impl (measure_result.ofResId r u) w).2.hookCalls
      = w.hookCalls ++ [r] ∧
    (measure_result.toBool impl (measure_result.ofResId r u) w).2.ext = (impl r w.ext).2 ∧
    (measure_result.toBool impl (measure_result.ofRes r) w).1 = (impl r w.ext).1 ∧
    (measure_result.toBool impl (measure_result.ofRes r) w).2.hookCalls
      = w.hookCalls ++ [r] ∧
    (measure_result.toBool impl (measure_result.ofRes r) w).2.ext = (impl r w.ext).2 ∧
    (measure_result.toBool impl (measure_result.ofRes 1) { ext := w.ext, hookCalls := [] }
      ).2.hookCalls = [1] := by
  simp [measure_result.toBool, __nvqpp__MeasureResultBoolConversion, measure_result.ofResId,
    measure_result.ofRes]

/-- C4, as stated, fails: no hook implementation and no world tell apart the
truth-value conversions of two results with raw code 1 and the different
identities 5 and 9; the identity never reaches the hook. -/
theorem measure_result.toBool_identity_not_passed :
    ¬ ∃ (σ : Type) (impl : HookImpl σ) (w : HookWorld σ),
      measure_result.toBool impl (measure_result.ofResId 1 5) w
        ≠ measure_result.toBool impl (measure_result.ofResId 1 9) w := by
  rintro ⟨σ, impl, w, h⟩
  exact h rfl

/-- C4, amended: a result built with raw code `r` and identity `u` stores
both, and its truth-value conversion hands the hook the raw code `r` alone: it
is the hook call with argument `r`, and it is the same computation for any two
identities. -/
theorem measure_result.toBool_depends_on_result_only {σ : Type} (impl : HookImpl σ) (r : Int)
    (u u1 : Nat) (w : HookWorld σ) :
    (measure_result.ofResId r u).result = r ∧
    (measure_result.ofResId r u).uniqueId = u ∧
    measure_result.toBool impl (measure_result.ofResId r u) w
      = __nvqpp__MeasureResultBoolConversion impl r w ∧
    (measure_result.toBool impl (measure_result.ofResId r u) w).2.hookCalls
      = w.hookCalls ++ [r] ∧
    measure_result.toBool impl (measure_result.ofResId r u) w
      = measure_result.toBool impl (measure_result.ofResId r u1) w := by
  simp [measure_result.toBool, __nvqpp__MeasureResultBoolConversion, measure_result.ofResId]

/-- C8: converting a library-mode measure_result built with raw code `r`, with
or without an identity, to an integer yields `r` verbatim and has no side
effect: the world, and with it the log of hook calls, is the one before the
conversion; raw code 1 converts to 1. -/
theorem measure_result.toInt_verbatim {σ : Type} (r : Int) (u : Nat) (w : HookWorld σ) :
    measure_result.toInt (measure_result.ofResId r u) w = (r, w) ∧
    measure_result.toInt (measure_result.ofRes r) w = (r, w) ∧
    (measure_result.toInt (measure_result.ofRes r) w).2.hookCalls = w.hookCalls ∧
    (measure_result.toInt (measure_result.ofRes 1) w).1 = 1 := by
  simp [measure_result.toInt, measure_result.ofResId, measure_result.ofRes]

/-! ## Manager resolution -/

/-- C1: `getExecutionManager` returns the installed override whenever one is
present, and then leaves the process as it was: the factory is not invoked and
nothing is constructed; when no override is present it is the call of
`getRegisteredExecutionManager` on that thread. The factory is invoked by the
call exactly when no override is present. -/
theorem getExecutionManager_override_first (Manager : ExecutionManager) (t : ThreadId)
    (p : Process) :
    (∀ em, getExecutionManagerInternal p = some em →
      getExecutionManager Manager t p = (em, p)) ∧
    (getExecutionManagerInternal p = none →
      getExecutionManager Manager t p = getRegisteredExecutionManager Manager t p) ∧
    ((getExecutionManager Manager t p).2.factoryCalls
        = p.factoryCalls ++ [(Factory.getRegisteredExecutionManager, t)]
      ↔ getExecutionManagerInternal p = none) ∧
    ((getExecutionManager Manager t p).2.factoryCalls = p.factoryCalls
      ↔ (getExecutionManagerInternal p).isSome = true) := by
  unfold getExecutionManager
  cases h : getExecutionManagerInternal p with
  | none =>
    simp only [getRegisteredExecutionManager]
    cases h2 : p.qis_manager t <;> simp
  | some em => simp

/-- Instances of C1: with the external manager at address 0 installed as
override, thread 3 gets address 0 and the process is unchanged; with nothing
installed, the call is the factory call. -/
theorem getExecutionManager_override_first_witness :
    (getExecutionManagerInternal
        (Process.init 1 ExecutionManager.blank (some 0)) = some 0 ∧
      getExecutionManager ExecutionManager.blank 3
          (Process.init 1 ExecutionManager.blank (some 0))
        = (0, Process.init 1 ExecutionManager.blank (some 0))) ∧
    (getExecutionManagerInternal (Process.init 1 ExecutionManager.blank none) = none ∧
      getExecutionManager ExecutionManager.blank 3
          (Process.init 1 ExecutionManager.blank none)
        = getRegisteredExecutionManager ExecutionManager.blank 3
          (Process.init 1 ExecutionManager.blank none)) :=
  ⟨⟨rfl, (getExecutionManager_override_first ExecutionManager.blank 3
      (Process.init 1 ExecutionManager.blank (some 0))).1 0 rfl⟩,
   ⟨rfl, (getExecutionManager_override_first ExecutionManager.blank 3
      (Process.init 1 ExecutionManager.blank none)).2.1 rfl⟩⟩

/-! ### The thread-local caches never change once set -/

theorem getRegisteredExecutionManager_cached (Manager : ExecutionManager) (t : ThreadId)
    (p : Process) :
    (getRegisteredExecutionManager Manager t p).2.qis_manager t
      = some (getRegisteredExecutionManager Manager t p).1 := by
  unfold getRegisteredExecutionManager
  cases h : p.qis_manager t <;> simp [h]

theorem getRegisteredExecutionManager_of_cached (Manager : ExecutionManager) (t : ThreadId)
    (p : Process) (a : Addr) (h : p.qis_manager t = some a) :
    (getRegisteredExecutionManager Manager t p).1 = a := by
  simp [getRegisteredExecutionManager, h]

theorem Process.step_qis_manager (Manager : ExecutionManager) (p : Process) (e : Event)
    (t : ThreadId) (a : Addr) (h : p.qis_manager t = some a) :
    (p.step Manager e).qis_manager t = some a := by
  cases e with
  | getExecutionManager u =>
    simp only [Process.step, getExecutionManager, getExecutionManagerInternal,
      getRegisteredExecutionManager]
    cases p.override with
    | some em => simpa using h
    | none =>
      cases hu : p.qis_manager u with
      | some b => simpa using h
      | none =>
        have : t ≠ u := by rintro rfl; simp [hu] at h
        simp [Function.update_apply, this, h]
  | getRegisteredExecutionManager u =>
    simp only [Process.step, getRegisteredExecutionManager]
    cases hu : p.qis_manager u with
    | some b => simpa using h
    | none =>
      have : t ≠ u := by rintro rfl; simp [hu] at h
      simp [Function.update_apply, this, h]
  | getRegisteredExecutionManager_Name u =>
    simp only [Process.step, getRegisteredExecutionManager_Name]
    cases hu : p.qis_manager_Name u <;> simpa using h
  | setOverride em => simpa [Process.step] using h
  | getNextIndex this =>
    simp only [Process.step, Process.getNextIndex]
    cases p.heap this <;> simpa using h
  | registerOperation this T name =>
    simpa [Process.step, ExecutionManager.registerOperation] using h
  | clearRegisteredOperations this =>
    simpa [Process.step, ExecutionManager.clearRegisteredOperations] using h

theorem Process.run_qis_manager (Manager : ExecutionManager) (es : List Event) (p : Process)
    (t : ThreadId) (a : Addr) (h : p.qis_manager t = some a) :
    (Process.run Manager es p).qis_manager t = some a := by
  induction es generalizing p with
  | nil => simpa [Process.run] using h
  | cons e es ih => exact ih _ (Process.step_qis_manager Manager p e t a h)

/-- C2, as stated, fails. One external manager lives at address 0 and nothing
is installed. The first call on thread 0 constructs the thread-local manager,
at address 1, and returns it; then the external manager is installed as
override; the next call on thread 0 returns address 0, not 1. The other way
round, a first call made under the override returns 0 and, once the override
is removed, the next call returns the thread-local manager 1. -/
theorem getExecutionManager_first_access_does_not_win :
    (getExecutionManager ExecutionManager.blank 0
        (Process.init 1 ExecutionManager.blank none)).1 = 1 ∧
    (getExecutionManager ExecutionManager.blank 0
        (Process.run ExecutionManager.blank [Event.setOverride (some 0)]
          (getExecutionManager ExecutionManager.blank 0
            (Process.init 1 ExecutionManager.blank none)).2)).1 = 0 ∧
    (getExecutionManager ExecutionManager.blank 0
        (Process.init 1 ExecutionManager.blank (some 0))).1 = 0 ∧
    (getExecutionManager ExecutionManager.blank 0
        (Process.run ExecutionManager.blank [Event.setOverride none]
          (getExecutionManager ExecutionManager.blank 0
            (Process.init 1 ExecutionManager.blank (some 0))).2)).1 = 1 :=
  ⟨rfl, rfl, rfl, rfl⟩

/-- C2, amended: per thread, the registered factory is first-access-wins:
after a call of `getRegisteredExecutionManager` on a thread has returned a
manager, every later call on that thread returns the same manager, whatever
happened in between. `getExecutionManager` consults the override on every
call: a later call on the same thread returns the manager the first call
returned provided the override in force at the later call is the one that was
in force at the first call (it may have been changed and changed back in
between); a call made while an override is installed returns that override. -/
theorem getExecutionManager_stable_while_override_same (Manager : ExecutionManager)
    (t : ThreadId) (p : Process) (es : List Event) :
    (getRegisteredExecutionManager Manager t
        (Process.run Manager es (getRegisteredExecutionManager Manager t p).2)).1
      = (getRegisteredExecutionManager Manager t p).1 ∧
    ((Process.run Manager es (getExecutionManager Manager t p).2).override = p.override →
      (getExecutionManager Manager t
          (Process.run Manager es (getExecutionManager Manager t p).2)).1
        = (getExecutionManager Manager t p).1) ∧
    (∀ em, (Process.run Manager es (getExecutionManager Manager t p).2).override = some em →
      (getExecutionManager Manager t
          (Process.run Manager es (getExecutionManager Manager t p).2)).1 = em) := by
  refine ⟨?_, ?_, ?_⟩
  · exact getRegisteredExecutionManager_of_cached Manager t _ _
      (Process.run_qis_manager Manager es _ t _
        (getRegisteredExecutionManager_cached Manager t p))
  · intro h
    cases hp : p.override with
    | some em =>
      rw [hp] at h
      simp [getExecutionManager, getExecutionManagerInternal, hp] at h ⊢
      simp [h]
    | none =>
      rw [hp] at h
      have e1 : getExecutionManager Manager t p = getRegisteredExecutionManager Manager t p := by
        simp [getExecutionManager, getExecutionManagerInternal, hp]
      rw [e1] at h ⊢
      have e2 : ∀ q : Process, q.override = none →
          getExecutionManager Manager t q = getRegisteredExecutionManager Manager t q := by
        intro q hq
        simp [getExecutionManager, getExecutionManagerInternal, hq]
      rw [e2 _ h]
      exact getRegisteredExecutionManager_of_cached Manager t _ _
        (Process.run_qis_manager Manager es _ t _
          (getRegisteredExecutionManager_cached Manager t p))
  · intro em h
    have e3 : ∀ q : Process, q.override = some em →
        (getExecutionManager Manager t q).1 = em := by
      intro q hq
      simp [getExecutionManager, getExecutionManagerInternal, hq]
    exact e3 _ h

/-- An instance of the amended C2: nothing is installed at the first call on
thread 0, an override is installed and removed again, and the later call on
thread 0 returns the manager of the first call; while the override is
installed the call returns it. -/
theorem getExecutionManager_stable_while_override_same_witness :
    ((Process.run ExecutionManager.blank [Event.setOverride (some 0), Event.setOverride none]
        (getExecutionManager ExecutionManager.blank 0
          (Process.init 1 ExecutionManager.blank none)).2).override
        = (Process.init 1 ExecutionManager.blank none).override ∧
      (getExecutionManager ExecutionManager.blank 0
          (Process.run ExecutionManager.blank
            [Event.setOverride (some 0), Event.setOverride none]
            (getExecutionManager ExecutionManager.blank 0
              (Process.init 1 ExecutionManager.blank none)).2)).1
        = (getExecutionManager ExecutionManager.blank 0
            (Process.init 1 ExecutionManager.blank none)).1) ∧
    ((Process.run ExecutionManager.blank [Event.setOverride (some 0)]
        (getExecutionManager ExecutionManager.blank 0
          (Process.init 1 ExecutionManager.blank none)).2).override = some 0 ∧
      (getExecutionManager ExecutionManager.blank 0
          (Process.run ExecutionManager.blank [Event.setOverride (some 0)]
            (getExecutionManager ExecutionManager.blank 0
              (Process.init 1 ExecutionManager.blank none)).2)).1 = 0) :=
  ⟨⟨rfl, (getExecutionManager_stable_while_override_same ExecutionManager.blank 0
      (Process.init 1 ExecutionManager.blank none)
      [Event.setOverride (some 0), Event.setOverride none]).2.1 rfl⟩,
   ⟨rfl, (getExecutionManager_stable_while_override_same ExecutionManager.blank 0
      (Process.init 1 ExecutionManager.blank none)
      [Event.setOverride (some 0)]).2.2 0 rfl⟩⟩

/-! ### The two factories keep separate caches -/

theorem customOpRegistry.lookup_registerOperation (r : customOpRegistry) (name : String)
    (T : OpDef) : (r.registerOperation name T).lookup name = some T := by
  simp [customOpRegistry.lookup, customOpRegistry.registerOperation]

/-- C7: the custom operation registry is process-wide, not per-manager. For
any two managers `m1` and `m2`: registering an operation under a name through
`m1` makes it resolvable in the one registry of the process, so that `apply`
on the dispatcher of `m2` forwards an instruction of that name; the effect is
the same through whichever manager the call is made; a clear through `m1`
empties the registry, so that afterwards `apply` on `m2` of a name that is not
built in fails with UnknownOperation; and neither call touches a manager
object, a thread-local cache or the override. -/
theorem registry_is_process_wide {R S : Type} (m1 m2 : Addr) (T : OpDef) (name : String)
    (p : Process) (isBuiltin : String → Bool) (d2 : Dispatcher R S) (params : List R)
    (controls targets : List QuditInfo) (isAdjoint : Bool) (op : S) :
    let p1 := ExecutionManager.registerOperation m1 T name p
    let p2 := ExecutionManager.clearRegisteredOperations m1 p1
    (customOpRegistry.getInstance p1).lookup name = some T ∧
    d2.apply isBuiltin (customOpRegistry.getInstance p1) name params controls targets
        isAdjoint op
      = .ok { d2 with
              forwarded := d2.forwarded
                ++ [d2.resolve name params controls targets isAdjoint op] } ∧
    ExecutionManager.registerOperation m2 T name p = p1 ∧
    (∀ n, (customOpRegistry.getInstance p2).lookup n = none) ∧
    (isBuiltin name = false →
      d2.apply isBuiltin (customOpRegistry.getInstance p2) name params controls targets
          isAdjoint op
        = .error ContractError.UnknownOperation) ∧
    ExecutionManager.clearRegisteredOperations m2 p1 = p2 ∧
    (p1.heap = p.heap ∧ p1.qis_manager = p.qis_manager ∧
      p1.qis_manager_Name = p.qis_manager_Name ∧ p1.override = p.override ∧
      p1.nextAddr = p.nextAddr) ∧
    (p2.heap = p.heap ∧ p2.qis_manager = p.qis_manager ∧
      p2.qis_manager_Name = p.qis_manager_Name ∧ p2.override = p.override ∧
      p2.nextAddr = p.nextAddr) := by
  intro p1 p2
  have hl : (customOpRegistry.getInstance p1).lookup name = some T :=
    customOpRegistry.lookup_registerOperation _ name T
  have hc : ∀ n, (customOpRegistry.getInstance p2).lookup n = none := by
    intro n
    simp [p2, customOpRegistry.getInstance, ExecutionManager.clearRegisteredOperations,
      customOpRegistry.clearRegisteredOperations, customOpRegistry.lookup]
  refine ⟨hl, ?_, rfl, hc, ?_, rfl, ⟨rfl, rfl, rfl, rfl, rfl⟩, ⟨rfl, rfl, rfl, rfl, rfl⟩⟩
  · simp [Dispatcher.apply, hl]
  · intro hb
    simp [Dispatcher.apply, hc, hb]

/-- An instance of C7: the operation "X" of type "MyOp" is registered through
the manager at address 1 and cleared through it; the name is not built in, and
`apply` on the fresh dispatcher of another manager then fails with
UnknownOperation. -/
theorem registry_is_process_wide_witness :
    (fun _ : String => false) "X" = false ∧
    (Dispatcher.fresh Int Unit).apply (fun _ => false)
        (customOpRegistry.getInstance
          (ExecutionManager.clearRegisteredOperations 1
            (ExecutionManager.registerOperation 1 "MyOp" "X"
              (Process.init 3 ExecutionManager.blank none))))
        "X" [] [] [QuditInfo.mk 2 0] false ()
      = .error ContractError.UnknownOperation :=
  ⟨rfl, (registry_is_process_wide 1 2 "MyOp" "X" (Process.init 3 ExecutionManager.blank none)
      (fun _ => false) (Dispatcher.fresh Int Unit) [] [] [QuditInfo.mk 2 0] false ()
      ).2.2.2.2.1 rfl⟩

/-! ## Adjoint regions -/

theorem Dispatcher.step_adjointDepth {R S : Type} (isBuiltin : String → Bool)
    (registry : customOpRegistry) (d d1 : Dispatcher R S) (c : DispatchCall R S)
    (h : d.step isBuiltin registry c = .ok d1) :
    d1.region.adjointDepth + DispatchCall.adjointEnds [c]
      = d.region.adjointDepth + DispatchCall.adjointStarts [c] := by
  cases c with
  | startAdjointRegion =>
    simp only [Dispatcher.step, Except.ok.injEq] at h
    subst h
    simp [Dispatcher.startAdjointRegion, RegionStack.beginAdjoint, DispatchCall.adjointEnds,
      DispatchCall.adjointStarts]
  | endAdjointRegion =>
    simp only [Dispatcher.step, Dispatcher.endAdjointRegion, RegionStack.endAdjoint] at h
    split at h
    · next r hr =>
      split at hr
      · cases hr
      · next hpos =>
        simp only [Except.ok.injEq] at hr h
        subst hr
        subst h
        simp only [DispatchCall.adjointEnds, DispatchCall.adjointStarts]
        omega
    · cases h
  | startCtrlRegion qs =>
    simp only [Dispatcher.step, Except.ok.injEq] at h
    subst h
    simp [Dispatcher.startCtrlRegion, RegionStack.beginControl, DispatchCall.adjointEnds,
      DispatchCall.adjointStarts]
  | endCtrlRegion n =>
    simp only [Dispatcher.step, Dispatcher.endCtrlRegion, RegionStack.endControl] at h
    split at h
    · next r hr =>
      split at hr
      · cases hr
      · split at hr
        · simp only [Except.ok.injEq] at hr h
          subst hr
          subst h
          simp [DispatchCall.adjointEnds, DispatchCall.adjointStarts]
        · cases hr
    · cases h
  | apply g ps cs ts adj op =>
    simp only [Dispatcher.step, Dispatcher.apply] at h
    split at h
    · simp only [Except.ok.injEq] at h
      subst h
      simp [DispatchCall.adjointEnds, DispatchCall.adjointStarts]
    · cases h

theorem DispatchCall.adjointStarts_cons {R S : Type} (c : DispatchCall R S)
    (cs : List (DispatchCall R S)) :
    DispatchCall.adjointStarts (c :: cs)
      = DispatchCall.adjointStarts [c] + DispatchCall.adjointStarts cs := by
  cases c <;> simp [DispatchCall.adjointStarts]
  omega

theorem DispatchCall.adjointEnds_cons {R S : Type} (c : DispatchCall R S)
    (cs : List (DispatchCall R S)) :
    DispatchCall.adjointEnds (c :: cs)
      = DispatchCall.adjointEnds [c] + DispatchCall.adjointEnds cs := by
  cases c <;> simp [DispatchCall.adjointEnds]
  omega

theorem Dispatcher.run_adjointDepth {R S : Type} (isBuiltin : String → Bool)
    (registry : customOpRegistry) (calls : List (DispatchCall R S)) (d0 d : Dispatcher R S)
    (h : Dispatcher.run isBuiltin registry calls d0 = .ok d) :
    d.region.adjointDepth + DispatchCall.adjointEnds calls
      = d0.region.adjointDepth + DispatchCall.adjointStarts calls := by
  induction calls generalizing d0 with
  | nil =>
    simp only [Dispatcher.run, Except.ok.injEq] at h
    subst h
    simp [DispatchCall.adjointEnds, DispatchCall.adjointStarts]
  | cons c cs ih =>
    simp only [Dispatcher.run] at h
    split at h
    · next d1 h1 =>
      have e1 := Dispatcher.step_adjointDepth isBuiltin registry d0 d1 c h1
      have e2 := ih d1 h
      rw [DispatchCall.adjointStarts_cons, DispatchCall.adjointEnds_cons]
      omega
    · cases h

/-- C9: adjoint XOR. Let a fresh dispatcher go through any sequence of calls
that succeeds, and let `d` be the number of `startAdjointRegion` calls not yet
matched by an `endAdjointRegion` call. Then `apply` of a known operation with
flag `isAdjoint` succeeds and forwards to the backend exactly one more
instruction, whose `finalAdjoint` is `isAdjoint XOR (d is odd)`. -/
theorem apply_adjoint_xor {R S : Type} (isBuiltin : String → Bool)
    (registry : customOpRegistry) (calls : List (DispatchCall R S)) (d : Dispatcher R S)
    (gateName : String) (params : List R) (controls targets : List QuditInfo)
    (isAdjoint : Bool) (op : S)
    (hrun : Dispatcher.run isBuiltin registry calls (Dispatcher.fresh R S) = .ok d)
    (hknown : (isBuiltin gateName || (registry.lookup gateName).isSome) = true) :
    DispatchCall.adjointEnds calls ≤ DispatchCall.adjointStarts calls ∧
    ∃ instr : Instruction R S,
      d.apply isBuiltin registry gateName params controls targets isAdjoint op
        = .ok { region := d.region, forwarded := d.forwarded ++ [instr] } ∧
      instr.gateName = gateName ∧ instr.targets = targets ∧
      instr.finalAdjoint
        = xor isAdjoint
            (decide ((DispatchCall.adjointStarts calls - DispatchCall.adjointEnds calls) % 2
              = 1)) := by
  have hd := Dispatcher.run_adjointDepth isBuiltin registry calls _ d hrun
  simp only [Dispatcher.fresh, RegionStack.empty, Nat.zero_add] at hd
  refine ⟨by omega, d.resolve gateName params controls targets isAdjoint op, ?_, rfl, rfl, ?_⟩
  · simp only [Dispatcher.apply, hknown, if_true]
  · have e : DispatchCall.adjointStarts calls - DispatchCall.adjointEnds calls
        = d.region.adjointDepth := by omega
    rw [e]
    have hb : (d.region.adjointDepth % 2 == 1) = decide (d.region.adjointDepth % 2 = 1) := by
      rcases Nat.mod_two_eq_zero_or_one d.region.adjointDepth with h | h <;> simp [h]
    simp [Dispatcher.resolve, RegionStack.effectiveAdjoint, hb]

/-- Instances of C9 with `isAdjoint = true` for the gate "h" on qubit 0:
inside one open adjoint region the forwarded instruction has
`finalAdjoint = false`; inside zero or two open regions it has
`finalAdjoint = true`. -/
theorem apply_adjoint_xor_witness :
    (Dispatcher.run (fun _ => true) { entries := [] } [DispatchCall.startAdjointRegion]
          (Dispatcher.fresh Int Unit)
        = .ok { region := { adjointDepth := 1, controlFrames := [] }, forwarded := [] } ∧
      ∃ instr : Instruction Int Unit,
        Dispatcher.apply (fun _ => true) { entries := [] }
            { region := { adjointDepth := 1, controlFrames := [] }, forwarded := [] }
            "h" [] [] [QuditInfo.mk 2 0] true ()
          = .ok { region := { adjointDepth := 1, controlFrames := [] }, forwarded := [instr] } ∧
        instr.finalAdjoint = false) ∧
    (Dispatcher.run (fun _ => true) { entries := [] } [] (Dispatcher.fresh Int Unit)
        = .ok (Dispatcher.fresh Int Unit) ∧
      ∃ instr : Instruction Int Unit,
        Dispatcher.apply (fun _ => true) { entries := [] } (Dispatcher.fresh Int Unit)
            "h" [] [] [QuditInfo.mk 2 0] true ()
          = .ok { region := RegionStack.empty, forwarded := [instr] } ∧
        instr.finalAdjoint = true) ∧
    (Dispatcher.run (fun _ => true) { entries := [] }
          [DispatchCall.startAdjointRegion, DispatchCall.startAdjointRegion]
          (Dispatcher.fresh Int Unit)
        = .ok { region := { adjointDepth := 2, controlFrames := [] }, forwarded := [] } ∧
      ∃ instr : Instruction Int Unit,
        Dispatcher.apply (fun _ => true) { entries := [] }
            { region := { adjointDepth := 2, controlFrames := [] }, forwarded := [] }
            "h" [] [] [QuditInfo.mk 2 0] true ()
          = .ok { region := { adjointDepth := 2, controlFrames := [] }, forwarded := [instr] } ∧
        instr.finalAdjoint = true) := by
  refine ⟨⟨rfl, ?_⟩, ⟨rfl, ?_⟩, ⟨rfl, ?_⟩⟩
  · obtain ⟨_, instr, h1, _, _, h4⟩ :=
      apply_adjoint_xor (fun _ => true) { entries := [] } [DispatchCall.startAdjointRegion]
        { region := { adjointDepth := 1, controlFrames := [] }, forwarded := [] }
        "h" ([] : List Int) [] [QuditInfo.mk 2 0] true () rfl rfl
    exact ⟨instr, h1, h4⟩
  · obtain ⟨_, instr, h1, _, _, h4⟩ :=
      apply_adjoint_xor (fun _ => true) { entries := [] } []
        (Dispatcher.fresh Int Unit)
        "h" ([] : List Int) [] [QuditInfo.mk 2 0] true () rfl rfl
    exact ⟨instr, h1, h4⟩
  · obtain ⟨_, instr, h1, _, _, h4⟩ :=
      apply_adjoint_xor (fun _ => true) { entries := [] }
        [DispatchCall.startAdjointRegion, DispatchCall.startAdjointRegion]
        { region := { adjointDepth := 2, controlFrames := [] }, forwarded := [] }
        "h" ([] : List Int) [] [QuditInfo.mk 2 0] true () rfl rfl
    exact ⟨instr, h1, h4⟩

/-! ## Leak detection -/

end cudaq
